import Mathlib

/-!
Verification development for CoursePilot (src/college-course-organizer.cpp),
a Qt/SQLite desktop organizer for college courses and assignments.

The embedding models the SQLite tables as in-memory lists of rows in storage
order, each UI slot that touches the database as a pure function from
database state to database state (plus its visible dialog outcome), and the
collaborating library primitives (QDateTime, the SHA-256 digest, the SQL
engine's ORDER BY and the std::priority_queue) at their documented
contracts.  The interaction model is the single-session, single-threaded one
of the application: one slot runs to completion at a time, and a transaction
publishes its effects only at commit.
-/

namespace CoursePilot

/-- Model of enum class AssignType. -/
inductive AssignType
  | HW | Quiz | Midterm | Final | Project | Essay | Other
deriving DecidableEq

/-- Model of the source's toString(AssignType) switch. -/
def assignTypeToString : AssignType → String
  | .HW => "HW"
  | .Quiz => "Quiz"
  | .Midterm => "Midterm"
  | .Final => "Final"
  | .Project => "Project"
  | .Essay => "Essay"
  | .Other => "Other"

/-- Model of parseAssignType: the chain of string comparisons, defaulting to Other. -/
def parseAssignType (s : String) : AssignType :=
  if s = "HW" then .HW
  else if s = "Quiz" then .Quiz
  else if s = "Midterm" then .Midterm
  else if s = "Final" then .Final
  else if s = "Project" then .Project
  else if s = "Essay" then .Essay
  else .Other

/-- Model of Qt's QDateTime: an absolute instant (seconds since the Unix epoch)
together with the UTC offset of its display time spec.  Qt stores the instant
internally; time-spec conversions change only the presentation offset. -/
structure QDateTime where
  utcSecs : Int
  offsetMin : Int
deriving DecidableEq

/-- QDateTime::toUTC keeps the instant and sets the UTC time spec. -/
def QDateTime.toUTC (d : QDateTime) : QDateTime := ⟨d.utcSecs, 0⟩

/-- QDateTime::toLocalTime keeps the instant and sets the ambient local zone,
passed here explicitly as its offset. -/
def QDateTime.toLocalTime (d : QDateTime) (localOffsetMin : Int) : QDateTime :=
  ⟨d.utcSecs, localOffsetMin⟩

/-- QDateTime::toSecsSinceEpoch returns the absolute instant, independent of
the display time spec. -/
def QDateTime.toSecsSinceEpoch (d : QDateTime) : Int := d.utcSecs

/-- QDateTime::fromSecsSinceEpoch builds the datetime for an absolute instant. -/
def QDateTime.fromSecsSinceEpoch (v : Int) : QDateTime := ⟨v, 0⟩

/-- QDateTime comparison used by DueSooner: strictly later instant. -/
def QDateTime.gtInstant (a b : QDateTime) : Bool := decide (b.utcSecs < a.utcSecs)

/-- Row of the users table (UNIQUE username, SHA-256 digest as bytes). -/
structure UserRow where
  id : Nat
  username : String
  passwordHash : List Nat
  createdAt : Int
deriving DecidableEq

/-- Row of the semesters table. -/
structure SemesterRow where
  id : Nat
  term : String
  year : Int
deriving DecidableEq

/-- Row of the courses table. -/
structure CourseRow where
  id : Nat
  userId : Nat
  semesterId : Nat
  code : String
  name : String
  colorHex : String
deriving DecidableEq

/-- Row of the assignments table (type stored as TEXT, due_at_utc as integer
epoch seconds, topics and notes nullable). -/
structure AssignmentRow where
  id : Nat
  courseId : Nat
  typeText : String
  title : String
  dueAtUtc : Int
  topics : Option String
  notes : Option String
deriving DecidableEq

/-- The SQLite database: the four tables of runMigrations, rows kept in
storage order. -/
structure DB where
  users : List UserRow
  semesters : List SemesterRow
  courses : List CourseRow
  assignments : List AssignmentRow
deriving DecidableEq

/-- Model of struct Assignment: the in-memory shape fed to the priority queue
by reloadUpcoming (notes is never populated there). -/
structure Assignment where
  id : Nat
  courseId : Nat
  type : AssignType
  title : String
  dueAtUtc : QDateTime
  topics : Option String
  notes : Option String
deriving DecidableEq

/-- The DueSooner comparator: a.dueAtUtc > b.dueAtUtc (min-heap on due). -/
def DueSooner (a b : Assignment) : Bool := QDateTime.gtInstant a.dueAtUtc b.dueAtUtc

/-- SQLite AUTOINCREMENT: the next id is strictly above every id in the table. -/
def nextId (ids : List Nat) : Nat := ids.foldr max 0 + 1

/-- Internal error kinds of the store (SQLite constraint failures). -/
inductive DBErr
  | duplicateUsername
  | checkViolation
deriving DecidableEq

/-- INSERT INTO users: the UNIQUE(username) constraint from runMigrations makes
the insert atomically fail on a duplicate, with no separate existence check. -/
def insertUserRow (db : DB) (u : UserRow) : Except DBErr DB :=
  if db.users.any (fun v => v.username == u.username) then .error .duplicateUsername
  else .ok { db with users := db.users ++ [u] }

/-- Externally visible outcome of AuthDialog::onLogin. -/
inductive LoginResult
  | warn (title msg : String)
  | success (userId : Nat)
deriving DecidableEq

/-- AuthDialog::onLogin: SELECT the user row by username; absent row warns
"User not found.", a digest mismatch warns "Incorrect password.".  The SHA-256
digest is a collaborating library primitive, passed in as `hash`. -/
def onLogin (hash : String → List Nat) (db : DB) (username password : String) : LoginResult :=
  match db.users.find? (fun u => u.username == username) with
  | none => .warn "Login failed" "User not found."
  | some u =>
    if u.passwordHash ≠ hash password then .warn "Login failed" "Incorrect password."
    else .success u.id

/-- Externally visible outcome of AuthDialog::onRegister. -/
inductive RegisterResult
  | warn (title msg : String)
  | info (title msg : String)
deriving DecidableEq

/-- AuthDialog::onRegister: one INSERT inside a transaction; on failure the
transaction is rolled back and a warning shown, on success it commits. -/
def onRegister (hash : String → List Nat) (now : Int) (db : DB)
    (username password : String) : RegisterResult × DB :=
  let row : UserRow := ⟨nextId (db.users.map UserRow.id), username, hash password, now⟩
  match insertUserRow db row with
  | .error _ => (.warn "Register failed" "Username exists?", db)
  | .ok db2 => (.info "Registered" "User created. Please login.", db2)

/-- The CHECK(term IN ('Fall','Spring')) constraint of the semesters table. -/
def validTerm (t : String) : Bool := t == "Fall" || t == "Spring"

/-- INSERT INTO semesters, subject to the CHECK constraint. -/
def insertSemesterRow (db : DB) (term : String) (year : Int) : Except DBErr (DB × Nat) :=
  if validTerm term then
    let sid := nextId (db.semesters.map SemesterRow.id)
    .ok ({ db with semesters := db.semesters ++ [⟨sid, term, year⟩] }, sid)
  else .error .checkViolation

/-- SemesterPicker::onOk: SELECT id WHERE term=? AND year=?; on a miss INSERT
inside a transaction.  Returns the new database and the resulting semesterId
(-1 when the insert rolled back, as the dialog field keeps its initial value). -/
def semesterPickerOk (db : DB) (term : String) (year : Int) : DB × Int :=
  match db.semesters.find? (fun s => s.term == term && s.year == year) with
  | some s => (db, (s.id : Int))
  | none =>
    match insertSemesterRow db term year with
    | .ok (db2, sid) => (db2, (sid : Int))
    | .error _ => (db, -1)

/-- Externally visible outcome of a save dialog: accept() with the saved id,
or an error box. -/
inductive SaveResult
  | accepted (savedId : Nat)
  | errorBox (title msg : String)
deriving DecidableEq

/-- CourseDialog::onSave, add branch (editCourseId < 0): INSERT with the color
defaulted to "#4F46E5" when the field is empty; commit and accept. -/
def courseDialogSaveAdd (db : DB) (userId semId : Nat)
    (code nm color : String) : SaveResult × DB :=
  let row : CourseRow := ⟨nextId (db.courses.map CourseRow.id), userId, semId, code, nm,
    if color == "" then "#4F46E5" else color⟩
  (.accepted row.id, { db with courses := db.courses ++ [row] })

/-- CourseDialog::onSave, edit branch: UPDATE courses SET code,name,color_hex
WHERE id=?.  An UPDATE that matches zero rows still executes successfully, so
the dialog commits and accepts either way. -/
def courseDialogSaveEdit (db : DB) (editCourseId : Nat)
    (code nm color : String) : SaveResult × DB :=
  let db2 := { db with courses := db.courses.map (fun c =>
    if c.id == editCourseId then
      { c with
        code := code
        name := nm
        colorHex := if color == "" then "#4F46E5" else color }
    else c) }
  (.accepted editCourseId, db2)

/-- The row bound by AssignmentDialog::onSave's add branch: due stored as
toUTC().toSecsSinceEpoch(), empty optional texts normalized to NULL. -/
def newAssignmentRow (db : DB) (courseId : Nat) (typeText title : String)
    (due : QDateTime) (topics notes : String) : AssignmentRow :=
  ⟨nextId (db.assignments.map AssignmentRow.id), courseId, typeText, title,
   (due.toUTC).toSecsSinceEpoch,
   if topics == "" then none else some topics,
   if notes == "" then none else some notes⟩

/-- AssignmentDialog::onSave, add branch: INSERT the new row; returns the new
database and the new assignment id. -/
def assignmentDialogSaveAdd (db : DB) (courseId : Nat) (typeText title : String)
    (due : QDateTime) (topics notes : String) : DB × Nat :=
  ({ db with assignments :=
      db.assignments ++ [newAssignmentRow db courseId typeText title due topics notes] },
   (newAssignmentRow db courseId typeText title due topics notes).id)

/-- AssignmentDialog::onSave, edit branch: UPDATE of all mutable columns. -/
def assignmentDialogSaveEdit (db : DB) (editAssignmentId : Nat) (typeText title : String)
    (due : QDateTime) (topics notes : String) : DB × Nat :=
  ({ db with assignments := db.assignments.map (fun a =>
    if a.id == editAssignmentId then
      { a with
        typeText := typeText
        title := title
        dueAtUtc := (due.toUTC).toSecsSinceEpoch
        topics := if topics == "" then none else some topics
        notes := if notes == "" then none else some notes }
    else a) }, editAssignmentId)

/-- The due_at_utc read-back of the edit dialog load (SELECT ... WHERE id=?),
converted fromSecsSinceEpoch then toLocalTime in an arbitrary local zone. -/
def loadAssignmentDue (db : DB) (assignmentId : Nat) (localOffsetMin : Int) : Option QDateTime :=
  (db.assignments.find? (fun a => a.id == assignmentId)).map
    (fun a => (QDateTime.fromSecsSinceEpoch a.dueAtUtc).toLocalTime localOffsetMin)

/-- DELETE FROM assignments WHERE course_id=?. -/
def delAssignsStmt (courseId : Nat) (db : DB) : DB :=
  { db with assignments := db.assignments.filter (fun a => ! (a.courseId == courseId)) }

/-- DELETE FROM courses WHERE id=?. -/
def delCourseStmt (courseId : Nat) (db : DB) : DB :=
  { db with courses := db.courses.filter (fun c => ! (c.id == courseId)) }

/-- A transaction applies its statements to a working state; only the commit
publishes the result. -/
def runTxn (db : DB) (stmts : List (DB → DB)) : DB := stmts.foldl (fun d f => f d) db

/-- The states a reader can observe around a transaction: the pre-state (until
the commit) and the committed post-state.  The working state between the
statements is never visible to a reader. -/
def txnVisibleStates (db : DB) (stmts : List (DB → DB)) : List DB := [db, runTxn db stmts]

/-- MainWindow::deleteCourse, after the confirmation: one transaction holding
the cascade delete of the assignments followed by the course delete. -/
def deleteCourse (db : DB) (courseId : Nat) : DB :=
  runTxn db [delAssignsStmt courseId, delCourseStmt courseId]

/-- MainWindow::deleteAssignment, after the confirmation. -/
def deleteAssignment (db : DB) (assignmentId : Nat) : DB :=
  { db with assignments := db.assignments.filter (fun a => ! (a.id == assignmentId)) }

/-- The JOIN/WHERE scope of reloadUpcoming: assignments whose course row is in
the (semesterId, userId) scope. -/
def inScope (courses : List CourseRow) (semesterId userId : Nat) (a : AssignmentRow) : Bool :=
  courses.any (fun c => a.courseId == c.id && c.semesterId == semesterId && c.userId == userId)

/-- The scoped assignment rows of reloadUpcoming's query, in storage order. -/
def scopedAssignments (db : DB) (semesterId userId : Nat) : List AssignmentRow :=
  db.assignments.filter (inScope db.courses semesterId userId)

/-- Key order of ORDER BY a.due_at_utc. -/
def rowLe (a b : AssignmentRow) : Prop := a.dueAtUtc ≤ b.dueAtUtc

instance : DecidableRel rowLe := fun a b => Int.decLe a.dueAtUtc b.dueAtUtc

instance : IsTotal AssignmentRow rowLe := ⟨fun a b => Int.le_total a.dueAtUtc b.dueAtUtc⟩

instance : IsTrans AssignmentRow rowLe := ⟨fun _ _ _ h1 h2 => le_trans h1 h2⟩

/-- Strict key order on the due instant, used for uniqueness of sorted order. -/
def rowLt (a b : AssignmentRow) : Prop := a.dueAtUtc < b.dueAtUtc

instance : IsAntisymm AssignmentRow rowLt :=
  ⟨fun _ _ h1 h2 => absurd h2 (not_lt.mpr (le_of_lt h1))⟩

/-- ORDER BY a.due_at_utc of the SQL engine, modeled as a stable sort on the
due instant (ties kept in storage order). -/
def sqlOrderByDue (l : List AssignmentRow) : List AssignmentRow := List.insertionSort rowLe l

/-- Building the in-memory Assignment from a query row, as reloadUpcoming's
row loop does (type parsed, due rebuilt fromSecsSinceEpoch().toUTC()). -/
def rowToAssignment (r : AssignmentRow) : Assignment :=
  ⟨r.id, r.courseId, parseAssignType r.typeText, r.title,
   (QDateTime.fromSecsSinceEpoch r.dueAtUtc).toUTC, r.topics, none⟩

/-- std::priority_queue with the DueSooner comparator, modeled at its contract:
the pending elements kept in pop order (soonest due first); a pushed element
lands after pending ties, matching the behavior of the library binary heap on
the tie cases considered below. -/
def pqPush (a : Assignment) : List Assignment → List Assignment
  | [] => [a]
  | b :: t => if DueSooner b a then a :: b :: t else b :: pqPush a t

/-- Pushing every queried row, in query order, into the priority queue. -/
def pqPushAll (l : List Assignment) : List Assignment :=
  l.foldl (fun h a => pqPush a h) []

/-- One rendered row of the Upcoming list.  The due instant is kept as the
absolute instant; its local-time text is locale presentation only. -/
structure UpcomingItem where
  typeName : String
  code : String
  title : String
  dueAtUtc : Int
  topics : Option String
deriving DecidableEq

/-- Rendering one popped assignment: SELECT code FROM courses WHERE id=? with
unchecked exec()/next() — a missing row yields a null QVariant, hence an empty
code string in the label. -/
def renderUpcoming (courses : List CourseRow) (a : Assignment) : UpcomingItem :=
  let code := ((courses.find? (fun c => c.id == a.courseId)).map CourseRow.code).getD ""
  ⟨assignTypeToString a.type, code, a.title, a.dueAtUtc.toSecsSinceEpoch, a.topics⟩

/-- The pop-and-render loop: while (!pq.empty() && shown < 10), with the
remaining budget counted down from 10. -/
def upcomingLoop (courses : List CourseRow) : Nat → List Assignment → List UpcomingItem
  | _, [] => []
  | 0, _ :: _ => []
  | k + 1, a :: rest => renderUpcoming courses a :: upcomingLoop courses k rest

/-- MainWindow::reloadUpcoming for a given (semesterId, userId) scope: query
the scoped assignments ordered by due instant, push them all into the priority
queue, then pop and render at most 10. -/
def reloadUpcoming (db : DB) (semesterId userId : Nat) : List UpcomingItem :=
  upcomingLoop db.courses 10
    (pqPushAll ((sqlOrderByDue (scopedAssignments db semesterId userId)).map rowToAssignment))

/-! Helper lemmas. -/

/-- Every id in the table is below the AUTOINCREMENT bound. -/
theorem le_foldr_max (ids : List Nat) (i : Nat) (h : i ∈ ids) : i ≤ ids.foldr max 0 := by
  induction ids with
  | nil => cases h
  | cons a t ih =>
    rcases List.mem_cons.mp h with rfl | h2
    · exact le_max_left _ _
    · exact le_trans (ih h2) (le_max_right _ _)

theorem lt_nextId (ids : List Nat) (i : Nat) (h : i ∈ ids) : i < nextId ids :=
  Nat.lt_succ_of_le (le_foldr_max ids i h)

/-- The pop-and-render loop is the bounded take of the queue, rendered. -/
theorem upcomingLoop_eq_take (courses : List CourseRow) :
    ∀ (k : Nat) (q : List Assignment),
      upcomingLoop courses k q = (q.take k).map (renderUpcoming courses) := by
  intro k
  induction k with
  | zero =>
    intro q
    cases q <;> simp [upcomingLoop]
  | succ n ih =>
    intro q
    cases q with
    | nil => simp [upcomingLoop]
    | cons a rest => simp [upcomingLoop, ih]

/-- Verification order on queue elements: due instants ascending. -/
def pqLe (a b : Assignment) : Prop := a.dueAtUtc.utcSecs ≤ b.dueAtUtc.utcSecs

theorem pqPush_perm (a : Assignment) : ∀ q : List Assignment, (pqPush a q).Perm (a :: q) := by
  intro q
  induction q with
  | nil => simp [pqPush]
  | cons b t ih =>
    by_cases hc : DueSooner b a = true
    · simp [pqPush, hc]
    · simp only [pqPush, hc, if_false, Bool.false_eq_true, ite_false]
      exact (ih.cons b).trans (List.Perm.swap a b t)

theorem pqPush_sorted (a : Assignment) :
    ∀ q : List Assignment, List.Sorted pqLe q → List.Sorted pqLe (pqPush a q) := by
  intro q
  induction q with
  | nil =>
    intro _
    simp [pqPush, List.sorted_singleton]
  | cons b t ih =>
    intro hs
    rw [List.sorted_cons] at hs
    obtain ⟨hb, ht⟩ := hs
    by_cases hc : DueSooner b a = true
    · have hab : a.dueAtUtc.utcSecs < b.dueAtUtc.utcSecs := by
        simpa [DueSooner, QDateTime.gtInstant] using hc
      simp only [pqPush, hc, ite_true]
      rw [List.sorted_cons]
      refine ⟨?h1, ?h2⟩
      · intro x hx
        rcases List.mem_cons.mp hx with rfl | hx2
        · exact le_of_lt hab
        · exact le_trans (le_of_lt hab) (hb x hx2)
      · rw [List.sorted_cons]
        exact ⟨hb, ht⟩
    · have hba : b.dueAtUtc.utcSecs ≤ a.dueAtUtc.utcSecs := by
        have := hc
        simp [DueSooner, QDateTime.gtInstant] at this
        exact this
      simp only [pqPush, hc, if_false, Bool.false_eq_true, ite_false]
      rw [List.sorted_cons]
      refine ⟨?g1, ih ht⟩
      intro x hx
      rcases List.mem_cons.mp ((pqPush_perm a t).mem_iff.mp hx) with rfl | hx2
      · exact hba
      · exact hb x hx2

theorem pqFold_perm : ∀ (l acc : List Assignment),
    (l.foldl (fun h a => pqPush a h) acc).Perm (acc ++ l) := by
  intro l
  induction l with
  | nil =>
    intro acc
    simp
  | cons a t ih =>
    intro acc
    have h1 := ih (pqPush a acc)
    have h2 : (pqPush a acc ++ t).Perm ((a :: acc) ++ t) :=
      (pqPush_perm a acc).append_right t
    have h3 : ((a :: acc) ++ t).Perm (acc ++ a :: t) := List.perm_middle.symm
    exact (h1.trans h2).trans h3

theorem pqPushAll_perm (l : List Assignment) : (pqPushAll l).Perm l := by
  simpa [pqPushAll] using pqFold_perm l []

theorem pqFold_sorted : ∀ (l acc : List Assignment), List.Sorted pqLe acc →
    List.Sorted pqLe (l.foldl (fun h a => pqPush a h) acc) := by
  intro l
  induction l with
  | nil => intro acc h; exact h
  | cons a t ih => intro acc h; exact ih (pqPush a acc) (pqPush_sorted a acc h)

theorem pqPushAll_sorted (l : List Assignment) : List.Sorted pqLe (pqPushAll l) :=
  pqFold_sorted l [] List.sorted_nil

/-- A find? over rows that all fail the predicate continues into the suffix. -/
theorem find?_append_none {α : Type} (p : α → Bool) :
    ∀ l1 l2 : List α, l1.find? p = none → (l1 ++ l2).find? p = l2.find? p := by
  intro l1
  induction l1 with
  | nil =>
    intro l2 _
    rfl
  | cons a t ih =>
    intro l2 h
    cases hpa : p a with
    | true =>
      simp [List.find?, hpa] at h
    | false =>
      simp only [List.find?, hpa] at h
      rw [List.cons_append]
      simp only [List.find?, hpa]
      exact ih l2 h

/-- A freshly inserted row is found back by its id. -/
theorem find?_id_append_new (db : DB) (row : AssignmentRow)
    (hrow : row.id = nextId (db.assignments.map AssignmentRow.id)) :
    (db.assignments ++ [row]).find? (fun a => a.id == row.id) = some row := by
  have hnone : db.assignments.find? (fun a => a.id == row.id) = none := by
    rw [List.find?_eq_none]
    intro a ha
    have hlt : a.id < row.id := by
      rw [hrow]
      exact lt_nextId _ _ (List.mem_map_of_mem AssignmentRow.id ha)
    simp only [beq_iff_eq]
    exact Nat.ne_of_lt hlt
  rw [find?_append_none _ _ _ hnone]
  simp [List.find?]

/-! Claim theorems. -/

/-- Claim C1: for every database state and (semester, user) scope, reloadUpcoming
returns at most 10 items, and the returned items are ordered ascending by the
absolute due instant: for positions i < j, due at i is at most due at j. -/
theorem reloadUpcoming_ordered_and_bounded (db : DB) (semesterId userId : Nat) :
    (reloadUpcoming db semesterId userId).length ≤ 10 ∧
    (reloadUpcoming db semesterId userId).Pairwise
      (fun x y => x.dueAtUtc ≤ y.dueAtUtc) := by
  constructor
  · rw [reloadUpcoming, upcomingLoop_eq_take, List.length_map, List.length_take]
    exact min_le_left _ _
  · rw [reloadUpcoming, upcomingLoop_eq_take, List.pairwise_map]
    have hs : List.Sorted pqLe
        (pqPushAll ((sqlOrderByDue
          (scopedAssignments db semesterId userId)).map rowToAssignment)) :=
      pqPushAll_sorted _
    have ht := List.Pairwise.sublist (List.take_sublist 10 _) hs
    exact ht.imp (fun hab => by
      simpa [renderUpcoming, QDateTime.toSecsSinceEpoch] using hab)

/-- Claim C2: deleteCourse removes every assignment referencing the course and
removes the course row, leaves the other tables untouched, and — being a single
committed transaction — the only states a reader can observe are the pre-state
and the committed post-state, with no partial cascade in between. -/
theorem deleteCourse_cascades_atomically (db : DB) (courseId : Nat) :
    (∀ a, a ∈ (deleteCourse db courseId).assignments → a.courseId ≠ courseId) ∧
    (∀ c, c ∈ (deleteCourse db courseId).courses → c.id ≠ courseId) ∧
    (deleteCourse db courseId).users = db.users ∧
    (deleteCourse db courseId).semesters = db.semesters ∧
    txnVisibleStates db [delAssignsStmt courseId, delCourseStmt courseId] =
      [db, deleteCourse db courseId] := by
  refine ⟨?h1, ?h2, rfl, rfl, rfl⟩
  · intro a ha
    simp [deleteCourse, runTxn, delAssignsStmt, delCourseStmt, List.mem_filter] at ha
    exact ha.2
  · intro c hc
    simp [deleteCourse, runTxn, delAssignsStmt, delCourseStmt, List.mem_filter] at hc
    exact hc.2

/-- Claim C7: saving an assignment with any due datetime stores the absolute
instant, and reading it back in any local zone yields the identical absolute
instant; the fromSecsSinceEpoch conversions likewise preserve the instant for
every display zone. -/
theorem assignment_due_roundtrip (db : DB) (courseId : Nat) (typeText title : String)
    (due : QDateTime) (topics notes : String) (readOffset : Int) :
    (loadAssignmentDue (assignmentDialogSaveAdd db courseId typeText title due topics notes).1
        (assignmentDialogSaveAdd db courseId typeText title due topics notes).2
        readOffset).map QDateTime.toSecsSinceEpoch = some due.toSecsSinceEpoch ∧
    (∀ v offs : Int, ((QDateTime.fromSecsSinceEpoch v).toUTC).toSecsSinceEpoch = v ∧
      ((QDateTime.fromSecsSinceEpoch v).toLocalTime offs).toSecsSinceEpoch = v) := by
  constructor
  · show (((db.assignments ++
        [newAssignmentRow db courseId typeText title due topics notes]).find?
        (fun a => a.id == (newAssignmentRow db courseId typeText title due topics notes).id)).map
        (fun a => (QDateTime.fromSecsSinceEpoch a.dueAtUtc).toLocalTime readOffset)).map
        QDateTime.toSecsSinceEpoch = some due.toSecsSinceEpoch
    rw [find?_id_append_new db (newAssignmentRow db courseId typeText title due topics notes) rfl]
    rfl
  · intro v offs
    exact ⟨rfl, rfl⟩

/-- Claim C10: an edit that leaves the color field empty overwrites the stored
color with the fixed default "#4F46E5" — the same default the add branch
applies at creation — rather than preserving the previously stored color. -/
theorem updateCourse_empty_color_resets_default (db : DB) (editCourseId : Nat)
    (code nm : String) (c : CourseRow) (hc : c ∈ db.courses) (hid : c.id = editCourseId) :
    ({ c with code := code, name := nm, colorHex := "#4F46E5" } : CourseRow) ∈
      ((courseDialogSaveEdit db editCourseId code nm "").2).courses ∧
    (∀ d uid sid co na, ((courseDialogSaveAdd d uid sid co na "").2).courses =
      d.courses ++ [⟨nextId (d.courses.map CourseRow.id), uid, sid, co, na, "#4F46E5"⟩]) := by
  constructor
  · simp only [courseDialogSaveEdit]
    rw [List.mem_map]
    refine ⟨c, hc, ?f⟩
    simp [hid]
  · intro d uid sid co na
    simp [courseDialogSaveAdd]

/-- Concrete database used to witness the color-reset behavior. -/
def dbColor : DB :=
  ⟨[⟨1, "u", [0], 0⟩], [⟨1, "Fall", 2024⟩], [⟨1, 1, 1, "CS101", "Intro", "#FF0000"⟩], []⟩

/-- Witness for claim C10: the course stored with color "#FF0000" ends up with
the default color after an edit with an empty color field. -/
theorem updateCourse_empty_color_resets_default_witness :
    (⟨1, 1, 1, "CS102", "N", "#4F46E5"⟩ : CourseRow) ∈
      ((courseDialogSaveEdit dbColor 1 "CS102" "N" "").2).courses :=
  (updateCourse_empty_color_resets_default dbColor 1 "CS102" "N"
    ⟨1, 1, 1, "CS101", "Intro", "#FF0000"⟩ (by simp [dbColor]) rfl).1

/-- Digest function used by the concrete instances below (the digest is an
opaque collaborator; any function of the password works for them). -/
def hashLen (s : String) : List Nat := [s.length]

/-- Concrete store with the single user "alice" whose stored digest matches no
hashLen output used below. -/
def dbAuth : DB := ⟨[⟨1, "alice", [99], 0⟩], [], [], []⟩

/-- Claim C3 counterexample: a login with an existing username and a wrong
password and a login with a nonexistent username produce warning dialogs whose
caller-facing message texts differ ("Incorrect password." vs "User not
found."), so the message does distinguish the two causes. -/
theorem onLogin_messages_distinguish :
    onLogin hashLen dbAuth "alice" "pw" = .warn "Login failed" "Incorrect password." ∧
    onLogin hashLen dbAuth "bob" "pw" = .warn "Login failed" "User not found." ∧
    onLogin hashLen dbAuth "alice" "pw" ≠ onLogin hashLen dbAuth "bob" "pw" := by
  refine ⟨?a, ?b, ?c⟩ <;> decide

/-- Claim C3 amended: both failure modes share the same externally visible
failure category — a warning dialog titled "Login failed" — but the
caller-facing message text does distinguish the causes: "User not found." for
an absent username versus "Incorrect password." for a digest mismatch. -/
theorem onLogin_failure_shape (hash : String → List Nat) (db : DB)
    (u1 u2 p1 p2 : String) (urow : UserRow)
    (h1 : db.users.find? (fun v => v.username == u1) = some urow)
    (h2 : urow.passwordHash ≠ hash p1)
    (h3 : db.users.find? (fun v => v.username == u2) = none) :
    onLogin hash db u1 p1 = .warn "Login failed" "Incorrect password." ∧
    onLogin hash db u2 p2 = .warn "Login failed" "User not found." := by
  constructor
  · simp only [onLogin, h1]
    simp [h2]
  · simp [onLogin, h3]

/-- Witness for the amended C3 theorem at a concrete store. -/
theorem onLogin_failure_shape_witness :
    onLogin hashLen dbAuth "alice" "x" = .warn "Login failed" "Incorrect password." ∧
    onLogin hashLen dbAuth "carol" "y" = .warn "Login failed" "User not found." :=
  onLogin_failure_shape hashLen dbAuth "alice" "carol" "x" "y" ⟨1, "alice", [99], 0⟩
    (by decide) (by decide) (by decide)

/-- Number of semester rows carrying the given (term, year) key. -/
def semKeyCount (db : DB) (term : String) (year : Int) : Nat :=
  (db.semesters.filter (fun s => s.term == term && s.year == year)).length

/-- Invariant: a (term, year) key identifies at most one semester row. -/
def semKeyUnique (db : DB) : Prop := ∀ term year, semKeyCount db term year ≤ 1

theorem onRegister_semesters (hash : String → List Nat) (now : Int) (d : DB) (u p : String) :
    ((onRegister hash now d u p).2).semesters = d.semesters := by
  unfold onRegister insertUserRow
  by_cases hdup : d.users.any (fun v => v.username == u) = true
  · simp [hdup]
  · simp [hdup]

/-- Claim C4: with a valid term and the key-uniqueness invariant holding,
running the semester lookup-or-create twice returns the same id both times and
leaves exactly one row for the key; the invariant is preserved, and every
other operation of the application leaves the semesters table untouched. -/
theorem getOrCreateSemester_idempotent (db : DB) (term : String) (year : Int)
    (hv : validTerm term = true) (hu : semKeyUnique db) :
    (semesterPickerOk (semesterPickerOk db term year).1 term year).2 =
      (semesterPickerOk db term year).2 ∧
    (semesterPickerOk (semesterPickerOk db term year).1 term year).1 =
      (semesterPickerOk db term year).1 ∧
    semKeyCount (semesterPickerOk db term year).1 term year = 1 ∧
    semKeyUnique (semesterPickerOk db term year).1 ∧
    (∀ d cid, (deleteCourse d cid).semesters = d.semesters) ∧
    (∀ hash now d u p, ((onRegister hash now d u p).2).semesters = d.semesters) ∧
    (∀ d uid sid co na col, ((courseDialogSaveAdd d uid sid co na col).2).semesters = d.semesters) ∧
    (∀ d eid co na col, ((courseDialogSaveEdit d eid co na col).2).semesters = d.semesters) ∧
    (∀ d cid ty ti due top no, ((assignmentDialogSaveAdd d cid ty ti due top no).1).semesters = d.semesters) ∧
    (∀ d aid ty ti due top no, ((assignmentDialogSaveEdit d aid ty ti due top no).1).semesters = d.semesters) ∧
    (∀ d aid, (deleteAssignment d aid).semesters = d.semesters) := by
  have hmain : (semesterPickerOk (semesterPickerOk db term year).1 term year).2 =
      (semesterPickerOk db term year).2 ∧
      (semesterPickerOk (semesterPickerOk db term year).1 term year).1 =
      (semesterPickerOk db term year).1 ∧
      semKeyCount (semesterPickerOk db term year).1 term year = 1 ∧
      semKeyUnique (semesterPickerOk db term year).1 := by
    cases hf : db.semesters.find? (fun s => s.term == term && s.year == year) with
    | some s =>
      have h1 : semesterPickerOk db term year = (db, (s.id : Int)) := by
        unfold semesterPickerOk
        rw [hf]
      have hps := List.find?_some hf
      have hms := List.mem_of_find?_eq_some hf
      have hmem : s ∈ db.semesters.filter (fun s0 => s0.term == term && s0.year == year) :=
        List.mem_filter.mpr ⟨hms, hps⟩
      have hcount : semKeyCount db term year = 1 := by
        have hge : 1 ≤ semKeyCount db term year :=
          List.length_pos.mpr (List.ne_nil_of_mem hmem)
        exact le_antisymm (hu term year) hge
      rw [h1]
      exact ⟨by rw [h1], by rw [h1], hcount, hu⟩
    | none =>
      have h1 : semesterPickerOk db term year =
          ({ db with semesters := db.semesters ++
              [⟨nextId (db.semesters.map SemesterRow.id), term, year⟩] },
           ((nextId (db.semesters.map SemesterRow.id) : Nat) : Int)) := by
        unfold semesterPickerOk insertSemesterRow
        rw [hf]
        simp [hv]
      have hfilter : db.semesters.filter (fun s0 => s0.term == term && s0.year == year) = [] := by
        rw [List.filter_eq_nil_iff]
        intro a ha
        exact List.find?_eq_none.mp hf a ha
      have hf2 : (db.semesters ++
          [(⟨nextId (db.semesters.map SemesterRow.id), term, year⟩ : SemesterRow)]).find?
          (fun s0 => s0.term == term && s0.year == year) =
          some (⟨nextId (db.semesters.map SemesterRow.id), term, year⟩ : SemesterRow) := by
        rw [find?_append_none _ _ _ hf]
        simp [List.find?]
      have h2 : semesterPickerOk (semesterPickerOk db term year).1 term year =
          ((semesterPickerOk db term year).1,
           ((nextId (db.semesters.map SemesterRow.id) : Nat) : Int)) := by
        rw [h1]
        unfold semesterPickerOk
        rw [hf2]
      refine ⟨?e1, ?e2, ?e3, ?e4⟩
      · rw [h2, h1]
      · rw [h2]
      · rw [h1]
        show semKeyCount { db with semesters := db.semesters ++
            [⟨nextId (db.semesters.map SemesterRow.id), term, year⟩] } term year = 1
        unfold semKeyCount
        rw [show ({ db with semesters := db.semesters ++
            [⟨nextId (db.semesters.map SemesterRow.id), term, year⟩] } : DB).semesters =
            db.semesters ++ [⟨nextId (db.semesters.map SemesterRow.id), term, year⟩] from rfl]
        rw [List.filter_append, hfilter]
        simp
      · rw [h1]
        intro t y
        show semKeyCount { db with semesters := db.semesters ++
            [⟨nextId (db.semesters.map SemesterRow.id), term, year⟩] } t y ≤ 1
        unfold semKeyCount
        rw [show ({ db with semesters := db.semesters ++
            [⟨nextId (db.semesters.map SemesterRow.id), term, year⟩] } : DB).semesters =
            db.semesters ++ [⟨nextId (db.semesters.map SemesterRow.id), term, year⟩] from rfl]
        rw [List.filter_append, List.length_append]
        by_cases hpr : ((⟨nextId (db.semesters.map SemesterRow.id), term, year⟩ :
            SemesterRow).term == t && (⟨nextId (db.semesters.map SemesterRow.id),
            term, year⟩ : SemesterRow).year == y) = true
        · have hkey : t = term ∧ y = year := by
            simp at hpr
            exact ⟨hpr.1.symm, hpr.2.symm⟩
          obtain ⟨rfl, rfl⟩ := hkey
          rw [hfilter]
          simp
        · have : List.filter (fun s0 => s0.term == t && s0.year == y)
              [(⟨nextId (db.semesters.map SemesterRow.id), term, year⟩ : SemesterRow)] = [] := by
            simp only [List.filter, hpr]
          rw [this]
          simpa [semKeyCount] using hu t y
  refine ⟨hmain.1, hmain.2.1, hmain.2.2.1, hmain.2.2.2, fun d cid => rfl,
    onRegister_semesters, fun d uid sid co na col => rfl, fun d eid co na col => rfl,
    fun d cid ty ti due top no => rfl, fun d aid ty ti due top no => rfl,
    fun d aid => rfl⟩

/-- The empty store. -/
def dbEmpty : DB := ⟨[], [], [], []⟩

/-- Witness for claim C4 at the empty store. -/
theorem getOrCreateSemester_idempotent_witness :
    (semesterPickerOk (semesterPickerOk dbEmpty "Fall" 2024).1 "Fall" 2024).2 =
      (semesterPickerOk dbEmpty "Fall" 2024).2 ∧
    semKeyCount (semesterPickerOk dbEmpty "Fall" 2024).1 "Fall" 2024 = 1 := by
  have h := getOrCreateSemester_idempotent dbEmpty "Fall" 2024 (by decide)
    (fun t y => by simp [semKeyCount, dbEmpty])
  exact ⟨h.1, h.2.2.1⟩

/-- Claim C5: registering a fresh username succeeds; repeating the same
username fails at the store level with the duplicateUsername constraint error
(the atomic UNIQUE insert, not a separate existence check), the dialog reports
the failure and rolls back, and the database — including the first
registration's row — is unchanged by the failed attempt. -/
theorem onRegister_duplicate_fails (hash : String → List Nat) (now now2 : Int)
    (db : DB) (username p1 p2 : String)
    (hfresh : db.users.all (fun v => ! (v.username == username)) = true) :
    (onRegister hash now db username p1).1 = .info "Registered" "User created. Please login." ∧
    insertUserRow (onRegister hash now db username p1).2
      ⟨nextId (((onRegister hash now db username p1).2).users.map UserRow.id),
        username, hash p2, now2⟩ = .error .duplicateUsername ∧
    (onRegister hash now2 (onRegister hash now db username p1).2 username p2).1 =
      .warn "Register failed" "Username exists?" ∧
    (onRegister hash now2 (onRegister hash now db username p1).2 username p2).2 =
      (onRegister hash now db username p1).2 := by
  have hany : db.users.any (fun v => v.username == username) = false := by
    rw [List.any_eq_false]
    intro v hv
    have h := List.all_eq_true.mp hfresh v hv
    simpa using h
  have h1 : onRegister hash now db username p1 =
      (.info "Registered" "User created. Please login.",
       { db with users := db.users ++
          [⟨nextId (db.users.map UserRow.id), username, hash p1, now⟩] }) := by
    unfold onRegister insertUserRow
    simp [hany]
  have hany2 : (db.users ++
      [(⟨nextId (db.users.map UserRow.id), username, hash p1, now⟩ : UserRow)]).any
      (fun v => v.username == username) = true := by
    have hmem1 : (⟨nextId (db.users.map UserRow.id), username, hash p1, now⟩ : UserRow) ∈
        db.users ++ [(⟨nextId (db.users.map UserRow.id), username, hash p1, now⟩ : UserRow)] := by
      simp
    rw [List.any_eq_true]
    refine ⟨_, hmem1, ?p⟩
    simp
  refine ⟨?c1, ?c2, ?c3, ?c4⟩
  · rw [h1]
  · rw [h1]
    unfold insertUserRow
    simp [hany2]
  · rw [h1]
    unfold onRegister insertUserRow
    simp [hany2]
  · rw [h1]
    unfold onRegister insertUserRow
    simp [hany2]

/-- Witness for claim C5 at the empty store. -/
theorem onRegister_duplicate_fails_witness :
    (onRegister hashLen 5 dbEmpty "alice" "pw").1 =
      .info "Registered" "User created. Please login." ∧
    (onRegister hashLen 6 (onRegister hashLen 5 dbEmpty "alice" "pw").2 "alice" "pw2").1 =
      .warn "Register failed" "Username exists?" ∧
    (onRegister hashLen 6 (onRegister hashLen 5 dbEmpty "alice" "pw").2 "alice" "pw2").2 =
      (onRegister hashLen 5 dbEmpty "alice" "pw").2 := by
  have h := onRegister_duplicate_fails hashLen 5 6 dbEmpty "alice" "pw" "pw2" (by decide)
  exact ⟨h.1, h.2.2.1, h.2.2.2⟩

/-- Claim C8 counterexample: with no course of id 42 in the table, the edit
branch still commits and accepts — it reports success instead of failing with
any NotFound condition — and the database is unchanged. -/
theorem updateCourse_missing_id_accepts :
    dbColor.courses.all (fun c => ! (c.id == 42)) = true ∧
    courseDialogSaveEdit dbColor 42 "X" "Y" "#123456" = (.accepted 42, dbColor) := by
  refine ⟨?a, ?b⟩ <;> decide

/-- Claim C8 amended: the edit branch always reports success: for an existing
courseId it fully replaces the mutable fields code, name and colorHex; for an
unknown courseId the UPDATE matches zero rows and the operation is a successful
no-op rather than a NotFound failure. -/
theorem updateCourse_replaces_or_noops (db : DB) (editCourseId : Nat) (code nm col : String) :
    (courseDialogSaveEdit db editCourseId code nm col).1 = .accepted editCourseId ∧
    (∀ c, c ∈ db.courses → c.id = editCourseId →
      ({ c with code := code, name := nm, colorHex := if col == "" then "#4F46E5" else col } : CourseRow) ∈
        ((courseDialogSaveEdit db editCourseId code nm col).2).courses) ∧
    ((∀ c, c ∈ db.courses → c.id ≠ editCourseId) →
      (courseDialogSaveEdit db editCourseId code nm col).2 = db) := by
  refine ⟨rfl, ?r1, ?r2⟩
  · intro c hc hid
    simp only [courseDialogSaveEdit]
    rw [List.mem_map]
    exact ⟨c, hc, by simp [hid]⟩
  · intro hnone
    simp only [courseDialogSaveEdit]
    have h2 : ∀ c ∈ db.courses, (fun c0 : CourseRow =>
        if c0.id == editCourseId then
          { c0 with code := code, name := nm, colorHex := if col == "" then "#4F46E5" else col }
        else c0) c = id c := by
      intro c hc
      simp [hnone c hc]
    rw [List.map_congr_left h2, List.map_id]

/-- Witness for the amended C8 theorem: editing the existing course replaces
its mutable fields. -/
theorem updateCourse_replaces_or_noops_witness :
    (courseDialogSaveEdit dbColor 1 "CS102" "Algo" "#00FF00").1 = .accepted 1 ∧
    (⟨1, 1, 1, "CS102", "Algo", "#00FF00"⟩ : CourseRow) ∈
      ((courseDialogSaveEdit dbColor 1 "CS102" "Algo" "#00FF00").2).courses := by
  have h := updateCourse_replaces_or_noops dbColor 1 "CS102" "Algo" "#00FF00"
  refine ⟨h.1, ?m⟩
  have h2 := h.2.1 ⟨1, 1, 1, "CS101", "Intro", "#FF0000"⟩ (by simp [dbColor]) rfl
  simpa using h2

/-- Two assignment rows tied on the due instant. -/
def rowTieA : AssignmentRow := ⟨1, 1, "HW", "a", 5, none, none⟩

def rowTieB : AssignmentRow := ⟨2, 1, "HW", "b", 5, none, none⟩

/-- One-user, one-course store holding the two tied assignments. -/
def dbTie1 : DB :=
  ⟨[⟨1, "u", [0], 0⟩], [⟨1, "Fall", 2024⟩], [⟨1, 1, 1, "CS101", "Intro", "#4F46E5"⟩],
   [rowTieA, rowTieB]⟩

/-- The same store with the assignment storage order swapped. -/
def dbTie2 : DB := { dbTie1 with assignments := [rowTieB, rowTieA] }

/-- Claim C6 counterexample: permuting the stored sequence of two assignments
tied on the due instant changes the Upcoming output sequence, so the ranking
is not invariant under reordering of the input when due instants tie. -/
theorem reloadUpcoming_not_perm_invariant :
    dbTie2.assignments.Perm dbTie1.assignments ∧
    reloadUpcoming dbTie2 1 1 ≠ reloadUpcoming dbTie1 1 1 := by
  constructor
  · exact List.Perm.swap rowTieA rowTieB []
  · decide

/-- Claim C6 amended: when the scoped assignments have pairwise distinct due
instants, the Upcoming output is identical for every permutation of the stored
assignment sequence; with ties the tie order follows storage order, so only
the due sequence and the item multiset are order-independent. -/
theorem reloadUpcoming_perm_invariant_of_distinct (db : DB) (l : List AssignmentRow)
    (semesterId userId : Nat) (hperm : l.Perm db.assignments)
    (hdist : (scopedAssignments db semesterId userId).Pairwise
      (fun a b => a.dueAtUtc ≠ b.dueAtUtc)) :
    reloadUpcoming { db with assignments := l } semesterId userId =
      reloadUpcoming db semesterId userId := by
  have hpf : (l.filter (inScope db.courses semesterId userId)).Perm
      (scopedAssignments db semesterId userId) := hperm.filter _
  have hs1 : List.Sorted rowLe (sqlOrderByDue (l.filter (inScope db.courses semesterId userId))) :=
    List.sorted_insertionSort rowLe _
  have hs2 : List.Sorted rowLe (sqlOrderByDue (scopedAssignments db semesterId userId)) :=
    List.sorted_insertionSort rowLe _
  have hp1 : (sqlOrderByDue (l.filter (inScope db.courses semesterId userId))).Perm
      (sqlOrderByDue (scopedAssignments db semesterId userId)) :=
    (List.perm_insertionSort rowLe _).trans (hpf.trans (List.perm_insertionSort rowLe _).symm)
  have hsymm : ∀ {a b : AssignmentRow}, a.dueAtUtc ≠ b.dueAtUtc → b.dueAtUtc ≠ a.dueAtUtc :=
    fun h => Ne.symm h
  have hd2 : (sqlOrderByDue (scopedAssignments db semesterId userId)).Pairwise
      (fun a b => a.dueAtUtc ≠ b.dueAtUtc) :=
    ((List.perm_insertionSort rowLe _).pairwise_iff hsymm).mpr hdist
  have hd1 : (sqlOrderByDue (l.filter (inScope db.courses semesterId userId))).Pairwise
      (fun a b => a.dueAtUtc ≠ b.dueAtUtc) :=
    (hp1.pairwise_iff hsymm).mpr hd2
  have hlt1 : List.Sorted rowLt (sqlOrderByDue (l.filter (inScope db.courses semesterId userId))) :=
    (List.Pairwise.and hs1 hd1).imp (fun h => lt_of_le_of_ne h.1 h.2)
  have hlt2 : List.Sorted rowLt (sqlOrderByDue (scopedAssignments db semesterId userId)) :=
    (List.Pairwise.and hs2 hd2).imp (fun h => lt_of_le_of_ne h.1 h.2)
  have heq : sqlOrderByDue (l.filter (inScope db.courses semesterId userId)) =
      sqlOrderByDue (scopedAssignments db semesterId userId) :=
    List.eq_of_perm_of_sorted hp1 hlt1 hlt2
  show upcomingLoop db.courses 10 (pqPushAll ((sqlOrderByDue
      (l.filter (inScope db.courses semesterId userId))).map rowToAssignment)) =
    upcomingLoop db.courses 10 (pqPushAll ((sqlOrderByDue
      (scopedAssignments db semesterId userId)).map rowToAssignment))
  rw [heq]

/-- Witness for claim C2 at a concrete store: the course's assignment is gone
after the cascade and the unrelated tables are untouched. -/
theorem deleteCourse_cascades_atomically_witness :
    rowTieA ∉ (deleteCourse dbTie1 1).assignments ∧
    (deleteCourse dbTie1 1).users = dbTie1.users :=
  ⟨fun hmem => (deleteCourse_cascades_atomically dbTie1 1).1 rowTieA hmem rfl,
   (deleteCourse_cascades_atomically dbTie1 1).2.2.1⟩

/-- Two assignment rows with distinct due instants. -/
def rowD1 : AssignmentRow := ⟨1, 1, "HW", "hw1", 3, none, none⟩

def rowD2 : AssignmentRow := ⟨2, 1, "Quiz", "q1", 7, none, none⟩

/-- One-user, one-course store holding the two distinct-due assignments. -/
def dbDistinct : DB :=
  ⟨[⟨1, "u", [0], 0⟩], [⟨1, "Fall", 2024⟩], [⟨1, 1, 1, "CS101", "Intro", "#4F46E5"⟩],
   [rowD1, rowD2]⟩

/-- Witness for the amended C6 theorem: with distinct due instants the swapped
storage order produces the identical Upcoming output. -/
theorem reloadUpcoming_perm_invariant_of_distinct_witness :
    reloadUpcoming { dbDistinct with assignments := [rowD2, rowD1] } 1 1 =
      reloadUpcoming dbDistinct 1 1 :=
  reloadUpcoming_perm_invariant_of_distinct dbDistinct [rowD2, rowD1] 1 1
    (List.Perm.swap rowD1 rowD2 []) (by decide)

/-- Store with one assignment whose course reference resolves to no course. -/
def dbDangling : DB :=
  ⟨[⟨1, "u", [0], 0⟩], [⟨1, "Fall", 2024⟩], [], [⟨1, 7, "HW", "orphan", 5, none, none⟩]⟩

/-- Claim C9 counterexample: an assignment whose course reference does not
resolve is silently excluded by the scoping join — the Upcoming list comes
back empty and no Corrupted condition is reported (the operation has no error
outcome at all) — instead of the condition being surfaced as Corrupted. -/
theorem reloadUpcoming_silently_skips_dangling :
    dbDangling.assignments ≠ [] ∧
    dbDangling.courses.all (fun c => ! (c.id == 7)) = true ∧
    reloadUpcoming dbDangling 1 1 = [] := by
  refine ⟨?a, ?b, ?c⟩ <;> decide

/-- Claim C9 amended: assignments whose course reference does not resolve are
silently excluded from the ranking by the scoping join, and every rendered
item's code is the display code of a course present in the table; the
operation's outcome has no Corrupted (or any error) channel. -/
theorem reloadUpcoming_resolves_codes (db : DB) (semesterId userId : Nat) :
    (∀ a, a ∈ db.assignments → (∀ c, c ∈ db.courses → c.id ≠ a.courseId) →
      a ∉ scopedAssignments db semesterId userId) ∧
    (∀ it, it ∈ reloadUpcoming db semesterId userId →
      ∃ c, c ∈ db.courses ∧ it.code = c.code) := by
  constructor
  · intro a ha hnc hmem
    simp only [scopedAssignments] at hmem
    have hs := (List.mem_filter.mp hmem).2
    simp only [inScope] at hs
    obtain ⟨c, hc, hpc⟩ := List.any_eq_true.mp hs
    have h1 : a.courseId = c.id := by
      simp at hpc
      tauto
    exact hnc c hc h1.symm
  · intro it hit
    rw [reloadUpcoming, upcomingLoop_eq_take] at hit
    obtain ⟨a, ha, rfl⟩ := List.mem_map.mp hit
    have ha2 : a ∈ pqPushAll ((sqlOrderByDue
        (scopedAssignments db semesterId userId)).map rowToAssignment) :=
      (List.take_sublist 10 _).subset ha
    have ha3 : a ∈ (sqlOrderByDue (scopedAssignments db semesterId userId)).map rowToAssignment :=
      (pqPushAll_perm _).mem_iff.mp ha2
    obtain ⟨r, hr, rfl⟩ := List.mem_map.mp ha3
    simp only [sqlOrderByDue] at hr
    have hr2 : r ∈ scopedAssignments db semesterId userId :=
      (List.perm_insertionSort rowLe _).mem_iff.mp hr
    simp only [scopedAssignments] at hr2
    have hsc := (List.mem_filter.mp hr2).2
    simp only [inScope] at hsc
    obtain ⟨c, hc, hpc⟩ := List.any_eq_true.mp hsc
    have hcid : c.id = r.courseId := by
      simp at hpc
      tauto
    have hsome : (db.courses.find? (fun c0 => c0.id == r.courseId)).isSome := by
      rw [List.find?_isSome]
      exact ⟨c, hc, by simp [hcid]⟩
    obtain ⟨c0, hc0⟩ := Option.isSome_iff_exists.mp hsome
    refine ⟨c0, List.mem_of_find?_eq_some hc0, ?e⟩
    simp only [renderUpcoming, rowToAssignment]
    rw [hc0]
    simp

/-- Witness for the amended C9 theorem: the first rendered item of a concrete
store carries the code of a stored course. -/
theorem reloadUpcoming_resolves_codes_witness :
    ∃ c, c ∈ dbDistinct.courses ∧
      (⟨"HW", "CS101", "hw1", 3, none⟩ : UpcomingItem).code = c.code :=
  (reloadUpcoming_resolves_codes dbDistinct 1 1).2 ⟨"HW", "CS101", "hw1", 3, none⟩ (by decide)

end CoursePilot
